import Mathlib

/-!
Verification development for the `Memory` layer of the Penzer repository
(`src/Agent/memory.py`): a SQLite-backed task queue plus a vector store with
two backends (FAISS `IndexIDMap` over `IndexFlatIP`, or a numpy brute-force
matrix fallback), persisted to disk after every mutation.

Modelling conventions:
  * Vectors (`float32` in the code) are modelled as lists of rationals; none of
    the properties settled here depends on floating-point rounding.
  * Python exceptions are modelled with `Except String`; a raised exception is
    `Except.error`, a normal return is `Except.ok`.
  * Python `None` returned from a function is `Option.none`.
  * Python dicts with insertion order (`_intid_to_str`, `metadata.json`
    payloads) are modelled as association lists with unique keys; dict `.pop`
    becomes a key filter and `.values()` becomes `map Prod.snd`.
  * On-disk files are modelled by `FileRead`: a file can be absent, present but
    unreadable/unparseable (every failure path that raises inside the reading
    code), or present with parsed content.
  * The model assumes numpy is importable (`_HAS_NUMPY = True`); the
    `RuntimeError` branches for a missing numpy are not modelled.
-/

namespace Penzer

/-- A vector of `float32` entries, modelled exactly over the rationals. -/
abbrev Vec := List Rat

/-- A metadata mapping (an arbitrary JSON object in the code), modelled as a
string-to-string association list; `[]` models the empty dict. -/
abbrev Meta := List (String × String)

/-- The parsed content of `metadata.json`: a dict from embedding id to its
metadata mapping. -/
abbrev MetaMap := List (String × Meta)

/-- State of one on-disk file as seen by the loading code: absent (the
`os.path.exists` guard fails), present but raising during read/parse
(corrupt payload, I/O error, or a parsed payload of the wrong shape), or
present with successfully parsed content. -/
inductive FileRead (α : Type) where
  | absent : FileRead α
  | bad : FileRead α
  | good (a : α) : FileRead α
deriving DecidableEq, Repr

/-- The in-memory state of `Memory`'s vector store
(`src/Agent/memory.py`, `Memory.__init__` lines 54-89).

`useFaiss` records whether the `faiss` import succeeded. The FAISS backend
state is `_intid_to_str` (insertion-ordered dict from int id to string id),
`_next_int_id`, and the index itself — modelled as the list of
`(int id, vector)` pairs held by the `IndexIDMap`, `none` before the first
add creates it. The numpy fallback state is `_emb_matrix`
(`none` until first add, then the row list) and `_emb_ids`. -/
structure Store where
  embeddingDim : Nat
  useFaiss : Bool
  intidToStr : List (Int × String)
  nextIntId : Int
  faissIndex : Option (List (Int × Vec))
  embMatrix : Option (List Vec)
  embIds : List String
deriving DecidableEq, Repr

/-- The state `Memory.__init__` builds before `_load_index` runs: both
backends empty, `_next_int_id = 1`. -/
def freshStore (dim : Nat) (useFaiss : Bool) : Store :=
  { embeddingDim := dim
    useFaiss := useFaiss
    intidToStr := []
    nextIntId := 1
    faissIndex := none
    embMatrix := none
    embIds := [] }

/-- `Memory.list_embedding_ids` (lines 299-303): the dict values for the FAISS
backend, the `_emb_ids` list for the numpy fallback. -/
def list_embedding_ids (s : Store) : List String :=
  if s.useFaiss then s.intidToStr.map Prod.snd else s.embIds

/-- Python dict assignment `d[k] = v` on an insertion-ordered dict: update in
place if the key exists, else append at the end. -/
def dictInsert (m : List (Int × String)) (k : Int) (v : String) :
    List (Int × String) :=
  if m.any (fun p => p.1 = k) then
    m.map (fun p => if p.1 = k then (k, v) else p)
  else
    m ++ [(k, v)]

/-- `Memory.add_embedding` (lines 180-219), the index mutation.

The code turns `vector` into a `(1, len)` float32 array and raises
`ValueError` when `len != embedding_dim` — before any state is touched.
FAISS path: lazily create `IndexIDMap(IndexFlatIP(dim))`, assign a fresh
int id, record the mapping, `add_with_ids`. Numpy path: append the row to
`_emb_matrix` (create it on first add) and append `emb_id` to `_emb_ids`.
The persistence call and the metadata-file write that follow are modelled
separately (`add_embedding_persist`); neither can change the index state. -/
def add_embedding (s : Store) (embId : String) (vector : Vec) :
    Except String Store :=
  if vector.length ≠ s.embeddingDim then
    .error "Embedding dimension mismatch"
  else if s.useFaiss then
    let idx := s.faissIndex.getD []
    let intId := s.nextIntId
    .ok { s with
            nextIntId := intId + 1
            intidToStr := dictInsert s.intidToStr intId embId
            faissIndex := some (idx ++ [(intId, vector)]) }
  else
    .ok { s with
            embMatrix := some (s.embMatrix.getD [] ++ [vector])
            embIds := s.embIds ++ [embId] }

/-- `Memory._save_index` (lines 158-178). The whole body is wrapped in
`try: ... except Exception: pass` (the docstring says "best-effort"), so the
caller always sees a normal return, whether or not the disk write worked.
The first component is the snapshot that actually reached disk (`none` when
the write failed); the second is what the caller observes. -/
def save_index (s : Store) (diskOk : Bool) :
    Option Store × Except String Unit :=
  (if diskOk then some s else none, .ok ())

/-- `Memory.add_embedding` including the `_persist_index_async` call: on a
successful index mutation the new state is persisted via `_save_index`,
whose failures are swallowed. Returns the new in-memory state together with
the snapshot that reached disk. -/
def add_embedding_persist (s : Store) (embId : String) (vector : Vec)
    (diskOk : Bool) : Except String (Store × Option Store) :=
  match add_embedding s embId vector with
  | .error e => .error e
  | .ok s' =>
    match (save_index s' diskOk).2 with
    | .error e => .error e
    | .ok _ => .ok (s', (save_index s' diskOk).1)

/-- `Memory.delete_embedding` (lines 316-351).

FAISS path (taken when `_use_faiss` and `_faiss_index is not None`): scan
`_intid_to_str` in insertion order for the first int id mapped to `emb_id`;
absent means return `False`. Present: attempt `remove_ids` on the index —
wrapped in `try/except pass` because not every FAISS build supports it, so
`removeOk` says whether the vector actually left the index — then pop the
mapping entry and return `True`. Numpy path: if `emb_id` occurs in
`_emb_ids`, delete the row at its first index from the matrix, pop the id,
return `True`; else return `False`. -/
def delete_embedding (s : Store) (embId : String) (removeOk : Bool) :
    Store × Bool :=
  if s.useFaiss ∧ s.faissIndex.isSome then
    match s.intidToStr.find? (fun p => p.2 = embId) with
    | none => (s, false)
    | some kv =>
      let idx := s.faissIndex.getD []
      let idx' := if removeOk then idx.filter (fun p => p.1 ≠ kv.1) else idx
      ({ s with
           faissIndex := some idx'
           intidToStr := s.intidToStr.filter (fun p => p.1 ≠ kv.1) }, true)
  else if s.embIds ≠ [] ∧ embId ∈ s.embIds then
    let i := s.embIds.indexOf embId
    ({ s with
         embMatrix := (s.embMatrix.map (fun m => m.eraseIdx i))
         embIds := s.embIds.eraseIdx i }, true)
  else
    (s, false)

/-- `Memory.delete_embedding` including the persistence call on the paths
that mutated state. First component is what the caller sees, second the
snapshot that reached disk. -/
def delete_embedding_persist (s : Store) (embId : String)
    (removeOk diskOk : Bool) : (Store × Bool) × Option Store :=
  let r := delete_embedding s embId removeOk
  if r.2 then (r, (save_index r.1 diskOk).1) else (r, none)

/-- One entry of a search result: `(emb_id, score, metadata)`. -/
abbrev SearchHit := String × Rat × Meta

/-- `Memory.search_embeddings` (lines 239-295), exactly as written.

The code builds the query array and raises `ValueError` on a dimension
mismatch. The entire result-construction block — lines 254-295, including
both backend branches and the final `return results` — is indented one
level further than the `raise`, i.e. it sits inside the
`if q.shape[1] != self.embedding_dim:` suite after the `raise` and is
unreachable. A call with a matching dimension therefore falls off the end
of the function body and returns Python `None`. -/
def search_embeddings (s : Store) (query : Vec) (topK : Nat) :
    Except String (Option (List SearchHit)) :=
  if query.length ≠ s.embeddingDim then
    .error "Query vector dimension mismatch"
  else
    .ok none

/-- `Memory.get_metadata` (lines 305-314): if `metadata.json` exists, parse
it and return `payload.get(emb_id, {})`, with any exception (unreadable
file, unparseable JSON, or a payload that is not a dict) caught and turned
into `{}`; if the file does not exist, return `{}`. -/
def get_metadata (metaFile : FileRead MetaMap) (embId : String) : Meta :=
  match metaFile with
  | .good payload =>
    ((payload.find? (fun p => p.1 = embId)).map Prod.snd).getD []
  | _ => []

/-! ### Task queue (SQLite `tasks` table) -/

/-- One row of the `tasks` table:
`id TEXT PRIMARY KEY, command TEXT, status TEXT DEFAULT 'pending',
result TEXT`. -/
structure Task where
  id : String
  command : String
  status : String
  result : Option String
deriving DecidableEq, Repr

/-- The `tasks` table in row order; the `PRIMARY KEY` constraint means ids
never repeat, which `add_task`'s `INSERT OR IGNORE` maintains. -/
abbrev TaskDB := List Task

/-- `Memory.store_result` (lines 122-128): runs
`UPDATE tasks SET status=?, result=? WHERE id=?` with `('done', result, id)`
and commits. The `UPDATE` touches every row whose id matches (zero rows
when the id is unknown) and cannot fail on an unknown id — no rowcount is
checked and no exception is raised. -/
def store_result (db : TaskDB) (taskId result : String) : TaskDB :=
  db.map (fun t =>
    if t.id = taskId then { t with status := "done", result := some result }
    else t)

/-- Reading the row with a given id back out of the `tasks` table (the
`SELECT ... WHERE id = ?` a caller performs to fetch a task by id; the
primary key makes at most one row match). -/
def get_task (db : TaskDB) (taskId : String) : Option Task :=
  db.find? (fun t => t.id = taskId)

/-! ### Startup load -/

/-- The four files `_load_index` may read from `index_dir`:
`index.faiss`, `meta.json` (`id_map` plus `next_int_id`), `embeddings.npy`,
`emb_ids.json`. -/
structure LoadEnv where
  indexFile : FileRead (List (Int × Vec))
  metaFile : FileRead (List (Int × String) × Int)
  matFile : FileRead (List Vec)
  idsFile : FileRead (List String)
deriving DecidableEq, Repr

/-- `Memory._load_index` (lines 136-156), tracking the state at the point the
function returns or raises, plus whether it raised.

FAISS branch: if `index.faiss` exists, `read_index` it (a failure raises
with nothing assigned; success assigns `_faiss_index`); then if `meta.json`
exists, parse it (a failure raises, leaving a previously assigned index in
place) and assign the id map and next int id. Numpy branch: only when both
`embeddings.npy` and `emb_ids.json` exist, `np.load` the matrix (failure
raises with nothing assigned) and then parse the id list (failure raises
with the matrix already assigned). -/
def load_index (s : Store) (env : LoadEnv) : Store × Bool :=
  if s.useFaiss then
    let afterIndex : Store × Bool :=
      match env.indexFile with
      | .absent => (s, false)
      | .bad => (s, true)
      | .good idx => ({ s with faissIndex := some idx }, false)
    if afterIndex.2 then afterIndex
    else
      match env.metaFile with
      | .absent => afterIndex
      | .bad => (afterIndex.1, true)
      | .good payload =>
        ({ afterIndex.1 with
             intidToStr := payload.1
             nextIntId := payload.2 }, false)
  else
    if env.matFile ≠ .absent ∧ env.idsFile ≠ .absent then
      match env.matFile with
      | .absent => (s, false)
      | .bad => (s, true)
      | .good m =>
        match env.idsFile with
        | .absent => ({ s with embMatrix := some m }, false)
        | .bad => ({ s with embMatrix := some m }, true)
        | .good ids => ({ s with embMatrix := some m, embIds := ids }, false)
    else
      (s, false)

/-- `Memory.__init__` (lines 54-89): build the fresh state, then run
`_load_index` inside `try: ... except Exception: pass`, so a load failure
never propagates — construction keeps whatever state `_load_index` had
assigned when it raised. -/
def initStore (dim : Nat) (useFaiss : Bool) (env : LoadEnv) : Store :=
  (load_index (freshStore dim useFaiss) env).1

/-! ### Replaying operation sequences -/

/-- One vector-store mutation, for replaying histories against a backend. -/
inductive Op where
  | add (id : String) (v : Vec) : Op
  | del (id : String) : Op
deriving DecidableEq, Repr

/-- Apply one operation; an `add` whose dimension check raises leaves the
state unchanged (the exception aborts before any mutation). -/
def applyOp (removeOk : Bool) (s : Store) : Op → Store
  | .add id v =>
    match add_embedding s id v with
    | .ok s' => s'
    | .error _ => s
  | .del id => (delete_embedding s id removeOk).1

/-- Replay a sequence of operations against a fresh store of the given
backend. -/
def replay (dim : Nat) (useFaiss removeOk : Bool) (ops : List Op) : Store :=
  ops.foldl (applyOp removeOk) (freshStore dim useFaiss)

/-- Backend-consistency invariant of every store reachable from a fresh one:
the inactive backend's state is empty, the FAISS int ids are distinct and
below `nextIntId`, and a nonempty id mapping implies the index object
exists. -/
def consistent (s : Store) : Prop :=
  (if s.useFaiss then s.embIds = [] ∧ s.embMatrix = none
   else s.intidToStr = [] ∧ s.faissIndex = none)
  ∧ (s.intidToStr.map Prod.fst).Nodup
  ∧ (∀ p ∈ s.intidToStr, p.1 < s.nextIntId)
  ∧ (s.useFaiss = true → s.intidToStr ≠ [] → s.faissIndex.isSome)

instance (s : Store) : Decidable (consistent s) := by
  unfold consistent
  infer_instance

/-- Does every `add` in the sequence use an id not currently in the store?
(`add_embedding` itself never checks this.) -/
def addsFresh (removeOk : Bool) : Store → List Op → Bool
  | _, [] => true
  | s, op :: rest =>
    (match op with
     | .add id _ => !(list_embedding_ids s).contains id
     | .del _ => true)
    && addsFresh removeOk (applyOp removeOk s op) rest

/-- The state a caller still holds after a call: the returned state on a
normal return, the unchanged previous state when the call raised. -/
def stateAfter (s : Store) (r : Except String Store) : Store :=
  match r with
  | .ok s' => s'
  | .error _ => s

/-- Did the call return normally (no exception)? -/
def isOkE {ε α : Type} : Except ε α → Bool
  | .ok _ => true
  | .error _ => false

/-- The history replayed in the backend-equivalence check: two adds and a
delete, `embedding_dim = 4`. -/
def eqOps : List Op :=
  [.add "a" [1, 0, 0, 0], .add "b" [0, 1, 0, 0], .del "a"]

/-- A concrete pending task used to exercise the task-queue claims. -/
def taskT1 : Task :=
  { id := "t1", command := "c", status := "pending", result := none }

/-- A concrete pending task whose id differs from `taskT1`'s. -/
def taskT0 : Task :=
  { id := "t0", command := "c0", status := "pending", result := none }

/-- A load environment whose matrix file parses but whose id-list file is
unreadable: `_load_index` raises only after `_emb_matrix` was assigned. -/
def matOnlyLoadEnv : LoadEnv :=
  { indexFile := .absent
    metaFile := .absent
    matFile := .good [[1, 0, 0, 0]]
    idsFile := .bad }

/-- A load environment whose matrix file is unreadable. -/
def badMatEnv : LoadEnv :=
  { indexFile := .absent
    metaFile := .absent
    matFile := .bad
    idsFile := .good [] }

/-- A load environment whose FAISS index file is unreadable. -/
def badIndexEnv : LoadEnv :=
  { indexFile := .bad
    metaFile := .absent
    matFile := .absent
    idsFile := .absent }

/-- A load environment whose FAISS index file parses but whose `meta.json`
is unreadable: `_load_index` raises after `_faiss_index` was assigned. -/
def indexOnlyLoadEnv : LoadEnv :=
  { indexFile := .good [(1, [1, 0, 0, 0])]
    metaFile := .bad
    matFile := .absent
    idsFile := .absent }

/-! ## Claim theorems -/

/-- Claim C1. The claimed round trip does not happen: because the whole
result-building block of `search_embeddings` is dead code under the
dimension-mismatch `raise`, a search immediately after a successful
`add_embedding` returns Python `None` — not a result list whose top entry
carries the added id — on both backends. Evaluated at `embedding_dim = 4`,
id `doc1`, vector `[1,0,0,0]`. -/
theorem add_then_search_returns_none :
    (add_embedding (freshStore 4 false) "doc1" [1, 0, 0, 0]).map
        (fun s1 => search_embeddings s1 [1, 0, 0, 0] 1)
      = Except.ok (Except.ok none) ∧
    (add_embedding (freshStore 4 true) "doc1" [1, 0, 0, 0]).map
        (fun s1 => search_embeddings s1 [1, 0, 0, 0] 1)
      = Except.ok (Except.ok none) := by
  constructor <;> rfl

/-- Claim C2. Replaying the same add/add/delete history (`eqOps`) against
both backend variants with `embedding_dim = 4` and then searching: neither
store returns a ranked id list at all — both calls return Python `None`,
because the result-building code of `search_embeddings` is unreachable. -/
theorem backend_search_both_return_none :
    search_embeddings (replay 4 false true eqOps) [1, 0, 0, 0] 5
      = Except.ok none ∧
    search_embeddings (replay 4 true true eqOps) [1, 0, 0, 0] 5
      = Except.ok none := by
  constructor <;> rfl

/-- Claim C3. A search on an empty store does not return the empty list:
it returns Python `None` (on both backends), and a store holding fewer
vectors than `top_k` also yields `None` rather than the smaller result
list — again because the result-building block of `search_embeddings` is
dead code. -/
theorem empty_store_search_returns_none :
    search_embeddings (freshStore 4 false) [0, 0, 0, 0] 5 = Except.ok none ∧
    search_embeddings (freshStore 4 true) [0, 0, 0, 0] 5 = Except.ok none ∧
    search_embeddings (replay 4 false true [.add "a" [1, 0, 0, 0]])
        [0, 0, 0, 0] 5 = Except.ok none := by
  refine ⟨rfl, rfl, rfl⟩

/-- Claim C4: a vector of the wrong length makes `add_embedding` and
`search_embeddings` raise the dimension-mismatch `ValueError`, and the
failed add leaves no partial state — the caller's store, and in particular
its list of known ids, is exactly what it was before the call. -/
theorem dimension_mismatch_rejected (s : Store) (id : String) (v q : Vec)
    (k : Nat) (hv : v.length ≠ s.embeddingDim)
    (hq : q.length ≠ s.embeddingDim) :
    (∃ e, add_embedding s id v = Except.error e) ∧
    (∃ e, search_embeddings s q k = Except.error e) ∧
    stateAfter s (add_embedding s id v) = s ∧
    list_embedding_ids (stateAfter s (add_embedding s id v))
      = list_embedding_ids s := by
  have ha : add_embedding s id v = .error "Embedding dimension mismatch" := by
    unfold add_embedding
    simp [hv]
  have hs : search_embeddings s q k
      = .error "Query vector dimension mismatch" := by
    unfold search_embeddings
    simp [hq]
  exact ⟨⟨_, ha⟩, ⟨_, hs⟩, by simp [stateAfter, ha], by simp [stateAfter, ha]⟩

/-- Witness for C4 at `embedding_dim = 4` and the length-1 vector `[1]`. -/
theorem dimension_mismatch_rejected_witness :
    (∃ e, add_embedding (freshStore 4 false) "x" [1] = Except.error e) ∧
    (∃ e, search_embeddings (freshStore 4 false) [1] 3 = Except.error e) ∧
    stateAfter (freshStore 4 false)
        (add_embedding (freshStore 4 false) "x" [1]) = freshStore 4 false ∧
    list_embedding_ids (stateAfter (freshStore 4 false)
        (add_embedding (freshStore 4 false) "x" [1]))
      = list_embedding_ids (freshStore 4 false) :=
  dimension_mismatch_rejected (freshStore 4 false) "x" [1] [1] 3
    (by decide) (by decide)

/-- Counterexample to claim C5: with the disk unavailable, `add_embedding`
still returns normally — `_save_index` swallows the write failure — so the
mutation is reported successful while the snapshot that reached disk is
`none`. -/
theorem persist_failure_not_surfaced :
    add_embedding_persist (freshStore 4 false) "doc1" [1, 0, 0, 0] false
      = Except.ok
          ({ freshStore 4 false with
               embMatrix := some [[1, 0, 0, 0]]
               embIds := ["doc1"] }, none) := by
  rfl

/-- Claim C5 amended: persistence is best-effort — whether the snapshot
write succeeds has no effect on what the caller observes from a mutation:
`add_embedding` succeeds or raises exactly as without persistence, and
`delete_embedding` returns the same state and flag. -/
theorem mutation_outcome_independent_of_disk (s : Store) (id : String)
    (v : Vec) (removeOk diskOk : Bool) :
    isOkE (add_embedding_persist s id v diskOk) = isOkE (add_embedding s id v)
    ∧ (delete_embedding_persist s id removeOk diskOk).1
        = delete_embedding s id removeOk := by
  constructor
  · unfold add_embedding_persist
    cases add_embedding s id v <;> rfl
  · unfold delete_embedding_persist
    by_cases h : (delete_embedding s id removeOk).2 <;> simp [h]

/-- Updating then fetching by id commutes with updating the fetched row:
`store_result` rewrites exactly the rows whose id matches, so the row found
afterwards is the row found before with status `done` and the result
attached. -/
theorem get_task_store_result (db : TaskDB) (tid res : String) :
    get_task (store_result db tid res) tid
      = (get_task db tid).map
          (fun t => { t with status := "done", result := some res }) := by
  induction db with
  | nil => rfl
  | cons t rest ih =>
    unfold get_task store_result at *
    by_cases h : t.id = tid
    · simp [List.find?_cons, h]
    · simp [List.find?_cons, h, ih]

/-- Counterexample to claim C6: `store_result` on an id absent from the
`tasks` table returns normally (the `UPDATE` matches zero rows; the code
checks no rowcount and raises nothing) and leaves the table unchanged,
instead of failing with `NotFound`. -/
theorem store_result_unknown_id_silent :
    store_result [taskT0] "t1" "r" = [taskT0] := by
  rfl

/-- Claim C6 amended: `store_result` on an unknown id is a silent no-op —
the table is unchanged and no error is raised; on a known id, a subsequent
fetch of that task reports status `done` and exactly the stored result
string. -/
theorem store_result_spec (db : TaskDB) (tid res : String) :
    (get_task db tid = none → store_result db tid res = db) ∧
    (∀ t, get_task db tid = some t →
      get_task (store_result db tid res) tid
        = some { t with status := "done", result := some res }) := by
  constructor
  · intro h
    have hall := List.find?_eq_none.mp h
    unfold store_result
    calc db.map (fun t =>
            if t.id = tid then { t with status := "done", result := some res }
            else t)
        = db.map id := by
          apply List.map_congr_left
          intro t ht
          have : ¬ (t.id = tid) := by
            have := hall t ht
            simpa using this
          simp [this]
      _ = db := List.map_id db
  · intro t ht
    rw [get_task_store_result, ht]
    rfl

/-- Witness for C6 amended: on the empty table the update is a no-op, and
after completing `taskT1` the fetched row is `done` with result `r`. -/
theorem store_result_spec_witness :
    store_result [] "t1" "r" = [] ∧
    get_task (store_result [taskT1] "t1" "r") "t1"
      = some { taskT1 with status := "done", result := some "r" } :=
  ⟨(store_result_spec [] "t1" "r").1 rfl,
   (store_result_spec [taskT1] "t1" "r").2 taskT1 rfl⟩

/-- Counterexample to claim C8: with a readable `embeddings.npy` but an
unreadable `emb_ids.json`, the startup load raises after the matrix was
assigned; construction swallows the exception and the store starts with
the partially loaded matrix — not from an empty embedding state. -/
theorem load_failure_keeps_loaded_matrix :
    (load_index (freshStore 4 false) matOnlyLoadEnv).2 = true ∧
    (initStore 4 false matOnlyLoadEnv).embMatrix = some [[1, 0, 0, 0]] ∧
    initStore 4 false matOnlyLoadEnv ≠ freshStore 4 false := by
  refine ⟨rfl, rfl, ?_⟩
  decide

/-- Claim C8 amended: construction never raises on a load failure — the
exception from `_load_index` is caught. When the failure happens before
anything was assigned (matrix file missing or unreadable; FAISS index file
unreadable), the store starts empty. But a failure after a partial load
keeps the partial state: a loaded matrix survives an unreadable id file,
and a loaded FAISS index survives an unreadable `meta.json`. -/
theorem initStore_load_failure (dim : Nat) (env : LoadEnv) :
    ((∀ m, env.matFile ≠ .good m) →
        initStore dim false env = freshStore dim false) ∧
    (env.indexFile = .bad → initStore dim true env = freshStore dim true) ∧
    (∀ m, env.matFile = .good m → env.idsFile = .bad →
        initStore dim false env
          = { freshStore dim false with embMatrix := some m }) ∧
    (∀ idx, env.indexFile = .good idx → env.metaFile = .bad →
        initStore dim true env
          = { freshStore dim true with faissIndex := some idx }) := by
  refine ⟨?_, ?_, ?_, ?_⟩
  · intro h
    unfold initStore load_index
    cases hm : env.matFile with
    | absent => simp [hm, freshStore]
    | bad => cases hi : env.idsFile <;> simp [hm, hi, freshStore]
    | good m => exact absurd hm (h m)
  · intro h
    unfold initStore load_index
    simp [h, freshStore]
  · rintro m hm hi
    unfold initStore load_index
    simp [hm, hi, freshStore]
  · rintro idx hidx hmeta
    unfold initStore load_index
    simp [hidx, hmeta, freshStore]

/-- Witness for C8 amended at `embedding_dim = 4`: an unreadable matrix
file and an unreadable index file both yield the fresh store; the two
partial-failure environments keep exactly the assigned part. -/
theorem initStore_load_failure_witness :
    initStore 4 false badMatEnv = freshStore 4 false ∧
    initStore 4 true badIndexEnv = freshStore 4 true ∧
    initStore 4 false matOnlyLoadEnv
      = { freshStore 4 false with embMatrix := some [[1, 0, 0, 0]] } ∧
    initStore 4 true indexOnlyLoadEnv
      = { freshStore 4 true with faissIndex := some [(1, [1, 0, 0, 0])] } :=
  ⟨(initStore_load_failure 4 badMatEnv).1
      (by intro m h; simp [badMatEnv] at h),
   (initStore_load_failure 4 badIndexEnv).2.1 rfl,
   (initStore_load_failure 4 matOnlyLoadEnv).2.2.1 [[1, 0, 0, 0]] rfl rfl,
   (initStore_load_failure 4 indexOnlyLoadEnv).2.2.2 [(1, [1, 0, 0, 0])]
     rfl rfl⟩

/-- Claim C10: `get_metadata` is total — every branch of the code either
returns the parsed mapping's entry or falls into a `return {}` — and it
returns the stored metadata exactly when the file parses and contains the
id, the empty mapping in every other case (missing file, unreadable or
non-dict file, unknown id). -/
theorem get_metadata_total (mf : FileRead MetaMap) (id : String) :
    (∀ payload m, mf = .good payload →
        payload.find? (fun p => p.1 = id) = some (id, m) →
        get_metadata mf id = m) ∧
    (mf = .absent → get_metadata mf id = []) ∧
    (mf = .bad → get_metadata mf id = []) ∧
    (∀ payload, mf = .good payload →
        payload.find? (fun p => p.1 = id) = none →
        get_metadata mf id = []) := by
  refine ⟨?_, ?_, ?_, ?_⟩
  · rintro payload m rfl hf
    simp [get_metadata, hf]
  · rintro rfl
    rfl
  · rintro rfl
    rfl
  · rintro payload rfl hf
    simp [get_metadata, hf]

/-- Witness for C10: a present entry is returned, and each of the three
fallback cases yields the empty mapping. -/
theorem get_metadata_total_witness :
    get_metadata (.good [("a", [("k", "v")])]) "a" = [("k", "v")] ∧
    get_metadata (FileRead.absent : FileRead MetaMap) "a" = [] ∧
    get_metadata (FileRead.bad : FileRead MetaMap) "a" = [] ∧
    get_metadata (.good [("b", [("k", "v")])]) "a" = [] :=
  ⟨(get_metadata_total (.good [("a", [("k", "v")])]) "a").1
      [("a", [("k", "v")])] [("k", "v")] rfl rfl,
   (get_metadata_total FileRead.absent "a").2.1 rfl,
   (get_metadata_total FileRead.bad "a").2.2.1 rfl,
   (get_metadata_total (.good [("b", [("k", "v")])]) "a").2.2.2
      [("b", [("k", "v")])] rfl rfl⟩

/-- Inserting under a key no existing entry uses appends a new dict entry. -/
theorem dictInsert_fresh (m : List (Int × String)) (k : Int) (v : String)
    (h : ∀ p ∈ m, p.1 ≠ k) : dictInsert m k v = m ++ [(k, v)] := by
  unfold dictInsert
  rw [if_neg]
  simp only [List.any_eq_true, decide_eq_true_eq, not_exists, not_and]
  exact h

/-- Popping the entry `find?` located for a value from a dict with distinct
keys removes exactly the first occurrence of that value from the value
list. -/
theorem values_filter_key (id : String) :
    ∀ (m : List (Int × String)) (kv : Int × String),
      (m.map Prod.fst).Nodup →
      m.find? (fun p => p.2 = id) = some kv →
      (m.filter (fun p => p.1 ≠ kv.1)).map Prod.snd
        = (m.map Prod.snd).erase id := by
  intro m
  induction m with
  | nil =>
    intro kv _ h
    simp at h
  | cons a rest ih =>
    intro kv hnd hf
    rw [List.map_cons, List.nodup_cons] at hnd
    by_cases ha : a.2 = id
    · have hkv : kv = a := by
        rw [List.find?_cons_of_pos _ (by simpa using ha)] at hf
        exact (Option.some.inj hf).symm
      subst hkv
      have hrest : rest.filter (fun p => p.1 ≠ kv.1) = rest := by
        rw [List.filter_eq_self]
        intro p hp
        simp only [ne_eq, decide_not, Bool.not_eq_eq_eq_not, Bool.not_true,
          decide_eq_false_iff_not]
        intro hpk
        exact hnd.1 (hpk ▸ List.mem_map_of_mem Prod.fst hp)
      rw [List.filter_cons, if_neg (by simp), hrest, List.map_cons, ← ha,
        List.erase_cons_head]
    · have hf' : rest.find? (fun p => p.2 = id) = some kv := by
        rw [List.find?_cons_of_neg _ (by simpa using ha)] at hf
        exact hf
      have hkvmem : kv ∈ rest := List.mem_of_find?_eq_some hf'
      have hane : a.1 ≠ kv.1 := by
        intro hEq
        exact hnd.1 (hEq ▸ List.mem_map_of_mem Prod.fst hkvmem)
      rw [List.filter_cons, if_pos (by simpa using hane), List.map_cons,
        ih kv hnd.2 hf', List.map_cons,
        List.erase_cons_tail (by simpa using ha)]

/-- Effect of a successful `add_embedding` on the visible id list: the new
id is appended at the end (on either backend, and whether or not the id
was already present), and backend consistency is preserved. -/
theorem add_embedding_ids (s : Store) (id : String) (v : Vec) (s' : Store)
    (hc : consistent s) (h : add_embedding s id v = .ok s') :
    list_embedding_ids s' = list_embedding_ids s ++ [id] ∧ consistent s' := by
  obtain ⟨hA, hB, hC, hD⟩ := hc
  unfold add_embedding at h
  by_cases hdim : v.length ≠ s.embeddingDim
  · rw [if_pos hdim] at h
    exact absurd h (by simp)
  · rw [if_neg hdim] at h
    cases huf : s.useFaiss with
    | true =>
      simp only [huf, if_true, Except.ok.injEq] at h
      subst h
      simp only [huf, if_true] at hA
      have hfresh : ∀ p ∈ s.intidToStr, p.1 ≠ s.nextIntId := by
        intro p hp hEq
        have := hC p hp
        omega
      constructor
      · simp [list_embedding_ids, huf, dictInsert_fresh _ _ _ hfresh]
      · refine ⟨?_, ?_, ?_, ?_⟩
        · simpa [huf] using hA
        · simp only [dictInsert_fresh _ _ _ hfresh, List.map_append,
            List.nodup_append]
          refine ⟨hB, by simp, ?_⟩
          intro x hx hx'
          simp only [List.map_cons, List.map_nil, List.mem_singleton] at hx'
          subst hx'
          obtain ⟨p, hp, hpx⟩ := List.mem_map.mp hx
          exact hfresh p hp hpx
        · intro p hp
          have hlt : p.1 < s.nextIntId + 1 := by
            simp only [dictInsert_fresh _ _ _ hfresh, List.mem_append,
              List.mem_singleton] at hp
            rcases hp with hp | hp
            · have := hC p hp
              omega
            · subst hp
              omega
          exact hlt
        · intro _ _
          simp
    | false =>
      simp only [huf, Bool.false_eq_true, if_false, Except.ok.injEq] at h
      subst h
      simp only [huf, Bool.false_eq_true, if_false] at hA
      constructor
      · simp [list_embedding_ids, huf]
      · exact ⟨by simpa [huf] using hA, hB, hC, by simp [huf]⟩

/-- Effect of `delete_embedding` on the visible id list of a consistent
store: an absent id leaves the store untouched and returns `False`; a
present id returns `True` and removes exactly the first occurrence of the
id, preserving consistency. -/
theorem delete_embedding_ids (s : Store) (id : String) (ro : Bool)
    (hc : consistent s) :
    (id ∉ list_embedding_ids s → delete_embedding s id ro = (s, false)) ∧
    (id ∈ list_embedding_ids s →
      (delete_embedding s id ro).2 = true ∧
      list_embedding_ids (delete_embedding s id ro).1
        = (list_embedding_ids s).erase id ∧
      consistent (delete_embedding s id ro).1) := by
  obtain ⟨hA, hB, hC, hD⟩ := hc
  cases huf : s.useFaiss with
  | false =>
    simp only [huf, Bool.false_eq_true, if_false] at hA
    have hids : list_embedding_ids s = s.embIds := by
      simp [list_embedding_ids, huf]
    constructor
    · intro hnot
      rw [hids] at hnot
      unfold delete_embedding
      rw [if_neg (by simp [huf]), if_neg (by simp [hnot])]
    · intro hmem
      rw [hids] at hmem
      unfold delete_embedding
      rw [if_neg (by simp [huf]),
        if_pos ⟨List.ne_nil_of_mem hmem, hmem⟩]
      refine ⟨rfl, ?_, ?_⟩
      · simp [list_embedding_ids, huf, hids,
          List.eraseIdx_indexOf_eq_erase]
      · exact ⟨by simp [huf, hA], hB, hC, by simp [huf]⟩
  | true =>
    simp only [huf, if_true] at hA
    have hids : list_embedding_ids s = s.intidToStr.map Prod.snd := by
      simp [list_embedding_ids, huf]
    constructor
    · intro hnot
      rw [hids] at hnot
      have hfind : s.intidToStr.find? (fun p => p.2 = id) = none := by
        rw [List.find?_eq_none]
        intro p hp
        simp only [decide_eq_true_eq]
        intro hEq
        exact hnot (hEq ▸ List.mem_map_of_mem Prod.snd hp)
      unfold delete_embedding
      by_cases hidx : s.faissIndex.isSome
      · rw [if_pos ⟨by simp [huf], hidx⟩, hfind]
      · rw [if_neg (by simp [hidx]), if_neg (by simp [hA.1])]
    · intro hmem
      rw [hids] at hmem
      obtain ⟨p0, hp0, hp0id⟩ := List.mem_map.mp hmem
      have hne : s.intidToStr ≠ [] := by
        intro hEq
        rw [hEq] at hp0
        exact absurd hp0 (List.not_mem_nil p0)
      have hidx : s.faissIndex.isSome := hD huf hne
      have hfs : (s.intidToStr.find? (fun p => p.2 = id)).isSome := by
        rw [List.find?_isSome]
        exact ⟨p0, hp0, by simpa using hp0id⟩
      obtain ⟨kv, hkv⟩ := Option.isSome_iff_exists.mp hfs
      unfold delete_embedding
      rw [if_pos ⟨by simp [huf], hidx⟩, hkv]
      refine ⟨rfl, ?_, ?_, ?_, ?_, ?_⟩
      · simp only [list_embedding_ids, huf, if_true, hids]
        exact values_filter_key id s.intidToStr kv hB hkv
      · simpa [huf] using hA
      · exact hB.sublist (List.Sublist.map Prod.fst (List.filter_sublist _))
      · intro p hp
        exact hC p (List.mem_of_mem_filter hp)
      · intro _ _
        simp

/-- Every operation preserves backend consistency (a raising `add` leaves
the state untouched). -/
theorem applyOp_consistent (ro : Bool) (s : Store) (op : Op)
    (hc : consistent s) : consistent (applyOp ro s op) := by
  cases op with
  | add id v =>
    simp only [applyOp]
    cases h : add_embedding s id v with
    | ok s' => exact (add_embedding_ids s id v s' hc h).2
    | error e => exact hc
  | del id =>
    simp only [applyOp]
    by_cases hm : id ∈ list_embedding_ids s
    · exact ((delete_embedding_ids s id ro hc).2 hm).2.2
    · rw [(delete_embedding_ids s id ro hc).1 hm]
      exact hc

/-- If every `add` in a sequence uses an id absent at that point, replaying
the sequence from any consistent store with duplicate-free ids keeps the
id list duplicate-free. -/
theorem foldl_ids_nodup (ro : Bool) (ops : List Op) :
    ∀ s : Store, consistent s → (list_embedding_ids s).Nodup →
      addsFresh ro s ops = true →
      (list_embedding_ids (ops.foldl (applyOp ro) s)).Nodup := by
  induction ops with
  | nil =>
    intro s _ hnd _
    simpa using hnd
  | cons op rest ih =>
    intro s hc hnd hf
    rw [List.foldl_cons]
    unfold addsFresh at hf
    rw [Bool.and_eq_true] at hf
    refine ih _ (applyOp_consistent ro s op hc) ?_ hf.2
    cases op with
    | add id v =>
      have hid : id ∉ list_embedding_ids s := by
        have h1 := hf.1
        simp at h1
        exact h1
      simp only [applyOp]
      cases h : add_embedding s id v with
      | ok s' =>
        rw [(add_embedding_ids s id v s' hc h).1, List.nodup_append]
        exact ⟨hnd, by simp, by
          intro x hx hx'
          simp only [List.mem_singleton] at hx'
          exact hid (hx' ▸ hx)⟩
      | error e => exact hnd
    | del id =>
      simp only [applyOp]
      by_cases hm : id ∈ list_embedding_ids s
      · rw [((delete_embedding_ids s id ro hc).2 hm).2.1]
        exact hnd.erase id
      · rw [(delete_embedding_ids s id ro hc).1 hm]
        exact hnd

/-- Counterexample to claim C7: after adding the same id twice (which
`add_embedding` permits), the first delete removes only the first copy and
a second `delete_embedding` call with the same id again returns `True`,
not `False`. -/
theorem second_delete_counterexample :
    (delete_embedding (replay 1 false true [.add "a" [1], .add "a" [1]])
        "a" true).2 = true ∧
    (delete_embedding (delete_embedding
        (replay 1 false true [.add "a" [1], .add "a" [1]]) "a" true).1
        "a" true).2 = true := by
  constructor <;> rfl

/-- Claim C7 amended: on a consistent store, deleting an absent id returns
`False` and changes nothing (in particular the id list); deleting an id
that occurs exactly once returns `True`, removes it, and a second delete of
the same id returns `False` leaving the state unchanged. When the store
holds duplicate copies of an id — possible because `add_embedding` does not
deduplicate — each copy needs its own delete, so the second call still
returns `True`. -/
theorem delete_embedding_idempotent (s : Store) (id : String)
    (ro ro2 : Bool) (hc : consistent s) :
    (id ∉ list_embedding_ids s → delete_embedding s id ro = (s, false)) ∧
    ((list_embedding_ids s).count id = 1 →
      (delete_embedding s id ro).2 = true ∧
      id ∉ list_embedding_ids (delete_embedding s id ro).1 ∧
      delete_embedding (delete_embedding s id ro).1 id ro2
        = ((delete_embedding s id ro).1, false)) := by
  have hd := delete_embedding_ids s id ro hc
  refine ⟨hd.1, ?_⟩
  intro hcount
  have hmem : id ∈ list_embedding_ids s := by
    rw [← List.count_pos_iff]
    omega
  obtain ⟨hflag, hids, hc'⟩ := hd.2 hmem
  have hnot : id ∉ list_embedding_ids (delete_embedding s id ro).1 := by
    rw [← List.count_eq_zero, hids, List.count_erase_self, hcount]
  exact ⟨hflag, hnot, (delete_embedding_ids _ id ro2 hc').1 hnot⟩

/-- Witness for C7 amended on the one-element reachable store holding only
id `a`: deleting the absent id `b` returns `False` and changes nothing;
deleting `a` returns `True`, removes it, and deleting `a` again returns
`False`. -/
theorem delete_embedding_idempotent_witness :
    delete_embedding (replay 1 false true [.add "a" [1]]) "b" true
      = (replay 1 false true [.add "a" [1]], false) ∧
    ((delete_embedding (replay 1 false true [.add "a" [1]]) "a" true).2
        = true ∧
      "a" ∉ list_embedding_ids
        (delete_embedding (replay 1 false true [.add "a" [1]]) "a" true).1 ∧
      delete_embedding
        (delete_embedding (replay 1 false true [.add "a" [1]]) "a" true).1
        "a" true
        = ((delete_embedding (replay 1 false true [.add "a" [1]]) "a"
            true).1, false)) :=
  ⟨(delete_embedding_idempotent (replay 1 false true [.add "a" [1]])
      "b" true true (by decide)).1 (by decide),
   (delete_embedding_idempotent (replay 1 false true [.add "a" [1]])
      "a" true true (by decide)).2 (by decide)⟩

/-- Counterexample to claim C9: adding the same id twice is accepted by
`add_embedding` and leaves two records under that id — the id list of the
reachable store is `["a", "a"]` with a duplicate, on both backends. -/
theorem duplicate_id_counterexample :
    list_embedding_ids (replay 1 false true [.add "a" [1], .add "a" [1]])
      = ["a", "a"] ∧
    ¬ (list_embedding_ids
        (replay 1 false true [.add "a" [1], .add "a" [1]])).Nodup ∧
    list_embedding_ids (replay 1 true true [.add "a" [1], .add "a" [1]])
      = ["a", "a"] := by
  refine ⟨rfl, by decide, rfl⟩

/-- Claim C9 amended: embedding ids are unique in every state reachable by
add/delete sequences in which each `add` uses an id not present at that
moment; `add_embedding` itself enforces nothing, so histories that re-add a
live id create duplicates. Holds for both backends. -/
theorem replay_ids_nodup (dim : Nat) (b ro : Bool) (ops : List Op)
    (h : addsFresh ro (freshStore dim b) ops = true) :
    (list_embedding_ids (replay dim b ro ops)).Nodup := by
  unfold replay
  apply foldl_ids_nodup ro ops (freshStore dim b) ?_ ?_ h
  · cases b <;> simp [consistent, freshStore]
  · cases b <;> simp [list_embedding_ids, freshStore]

/-- Witness for C9 amended: a fresh add/add/delete history on the numpy
backend and a fresh add/add history on the FAISS backend both keep the id
list duplicate-free. -/
theorem replay_ids_nodup_witness :
    (list_embedding_ids (replay 1 false true
        [.add "a" [1], .add "b" [2], .del "a"])).Nodup ∧
    (list_embedding_ids (replay 1 true true
        [.add "a" [1], .add "b" [2]])).Nodup :=
  ⟨replay_ids_nodup 1 false true [.add "a" [1], .add "b" [2], .del "a"]
      (by decide),
   replay_ids_nodup 1 true true [.add "a" [1], .add "b" [2]] (by decide)⟩

end Penzer
